import Mathlib

/-!
# NinjaSnipeSync — verification of the reconciliation engine

Shallow embedding of the Ninja-RMM → Snipe-IT sync service
(`src/functions/getDevices.js`, `src/services/ninjaService.js`,
`src/services/snipeService.js`).  Pure data transformations are embedded as
Lean functions; the stateful `SnipeService` instance (its caches, the remote
Snipe-IT server and the outbound HTTP traffic) is embedded as explicit state
passing over a `St` record, with every outbound request recorded in a call
trace.  JavaScript numbers are `Nat` (all quantities involved are
non-negative integers), JS strings are `String`, an absent/`undefined`
sub-object is `Option`, and a JS `Map` is an association list with
set-replaces-existing-key semantics (`mset`).  Fallible operations return
`Except String` while always returning the state reached so far (a thrown
exception in the source does not roll back cache mutations or un-send
requests).
-/

set_option autoImplicit false

namespace NinjaSnipeSync

/-- JS `s || d` for strings: the empty string is the only falsy string
(an absent property is modelled by the default `""`). -/
def jsOr (s d : String) : String := if s = "" then d else s

/-- JS `String.prototype.toLowerCase()` on the ASCII names this system
handles: lower-case every character.  Written by structural recursion over
the string's character list (unlike core `String.toLower`, whose
well-founded recursion the kernel cannot evaluate inside proofs). -/
def strToLower (s : String) : String := ⟨s.data.map Char.toLower⟩

/-! ## ninjaService.js — canonical device shape -/

/-- The `system` sub-object of a device record (canonical device fields). -/
structure SystemInfo where
  name : String
  manufacturer : String
  model : String
  biosSerialNumber : String
  serialNumber : String
  domain : String
  domainRole : String
  numberOfProcessors : Nat
  totalPhysicalMemory : Nat
  virtualMachine : Bool
  chassisType : String
deriving Repr, DecidableEq

/-- A raw device record as returned by the Ninja RMM listing endpoint.
VMware-host records carry hardware fields at top level; a field the record
does not have is modelled by its JS-falsy default (`""` / `0` / `none`). -/
structure RawDevice where
  id : Nat
  systemName : String
  nodeClass : String
  system : Option SystemInfo
  name : String := ""
  vendor : String := ""
  model : String := ""
  biosSerialNumber : String := ""
  serialNumber : String := ""
  domain : String := ""
  domainRole : String := ""
  numberOfProcessors : Nat := 0
  totalPhysicalMemory : Nat := 0
  chassisType : String := ""
deriving Repr, DecidableEq

/-- The standardized device details produced by `NinjaService` (the
canonical device handed to the Snipe-IT side). -/
structure DeviceDetails where
  id : Nat
  systemName : String
  nodeClass : String
  system : SystemInfo
deriving Repr, DecidableEq

/-- `NinjaService.createDefaultDeviceDetails`: synthesized system block for
records with no system data. -/
def createDefaultDeviceDetails (device : RawDevice) : DeviceDetails :=
  { id := device.id
    systemName := device.systemName
    nodeClass := device.nodeClass
    system :=
      { name := jsOr device.systemName "Unknown"
        manufacturer := "Unknown"
        model := "Unknown"
        biosSerialNumber := "Unknown"
        serialNumber := "Unknown"
        domain := "Unknown"
        domainRole := "Unknown"
        numberOfProcessors := 0
        totalPhysicalMemory := 0
        virtualMachine := false
        chassisType := "Unknown" } }

/-- `NinjaService.createVMwareHostDetails`: host-level fields mapped into the
system block (`device.numberOfProcessors || 0` is the identity on `Nat`). -/
def createVMwareHostDetails (device : RawDevice) : DeviceDetails :=
  { id := device.id
    systemName := device.systemName
    nodeClass := device.nodeClass
    system :=
      { name := jsOr device.name "Unknown"
        manufacturer := jsOr device.vendor "Unknown"
        model := jsOr device.model "Unknown"
        biosSerialNumber := jsOr device.biosSerialNumber "Unknown"
        serialNumber := jsOr device.serialNumber "Unknown"
        domain := jsOr device.domain "Unknown"
        domainRole := jsOr device.domainRole "Unknown"
        numberOfProcessors := device.numberOfProcessors
        totalPhysicalMemory := device.totalPhysicalMemory
        virtualMachine := true
        chassisType := jsOr device.chassisType "Unknown" } }

/-- `NinjaService.createStandardDeviceDetails`: the device's own system block
passed through unchanged (only reachable when `device.system` is present). -/
def createStandardDeviceDetails (device : RawDevice) (sys : SystemInfo) : DeviceDetails :=
  { id := device.id
    systemName := device.systemName
    nodeClass := device.nodeClass
    system := sys }

/-- `NinjaService.createDeviceDetails`:
`if (!device.system && device.nodeClass !== 'VMWARE_VM_HOST') default
 else if (device.nodeClass === 'VMWARE_VM_HOST') vmware else standard`. -/
def createDeviceDetails (device : RawDevice) : DeviceDetails :=
  match device.system with
  | none =>
      if device.nodeClass = "VMWARE_VM_HOST" then createVMwareHostDetails device
      else createDefaultDeviceDetails device
  | some sys =>
      if device.nodeClass = "VMWARE_VM_HOST" then createVMwareHostDetails device
      else createStandardDeviceDetails device sys

/-- `NinjaService.processDevices`: drop guest-VM and cloud-monitor records,
standardize the rest. -/
def processDevices (devices : List RawDevice) : List DeviceDetails :=
  (devices.filter fun device =>
      device.nodeClass != "VMWARE_VM_GUEST" && device.nodeClass != "CLOUD_MONITOR_TARGET")
    |>.map createDeviceDetails

/-! ## snipeService.js — the rate-limited request gate

`rateLimitedRequest` is embedded on its own: the part of the state it touches
is only `lastRequestTime`, and the wrapped `requestFn` is abstracted as a
function from attempt index to outcome.  `completionTime` is the value
`Date.now()` returns when the first attempt resolves successfully (the only
point at which the source reads the clock again). -/

/-- Outcome of one invocation of the wrapped request function:
success, an HTTP-429 throttling rejection, or any other failure. -/
inductive ReqOutcome where
  | ok (v : Nat)
  | throttle
  | fail
deriving Repr, DecidableEq

/-- Errors propagated out of the gate. -/
inductive GateError where
  | throttle
  | fail
deriving Repr, DecidableEq

/-- Observable result of one pass through `rateLimitedRequest`: the value or
error produced, the gate's `lastRequestTime` afterwards, the artificial
delays awaited (in order), and how many times `requestFn` was invoked. -/
structure GateRun where
  result : Except GateError Nat
  lastRequestTime : Nat
  waits : List Nat
  attempts : Nat
deriving Repr

/-- `this.requestDelay = 1000` — the minimum inter-request interval (ms). -/
def requestDelay : Nat := 1000

/-- `SnipeService.rateLimitedRequest`.  Waits out the remainder of the
minimum interval, invokes `req 0`; on success stamps `lastRequestTime`;
on a 429 waits `2 * delay` and invokes `req 1` exactly once, whose outcome
(success or any error) is returned as is; a non-429 error propagates. -/
def rateLimitedRequest (delay lastRequestTime now completionTime : Nat)
    (req : Nat → ReqOutcome) : GateRun :=
  let preWaits : List Nat :=
    if now - lastRequestTime < delay then [delay - (now - lastRequestTime)] else []
  match req 0 with
  | .ok v =>
      { result := .ok v, lastRequestTime := completionTime
        waits := preWaits, attempts := 1 }
  | .throttle =>
      match req 1 with
      | .ok v =>
          { result := .ok v, lastRequestTime := lastRequestTime
            waits := preWaits ++ [2 * delay], attempts := 2 }
      | .throttle =>
          { result := .error .throttle, lastRequestTime := lastRequestTime
            waits := preWaits ++ [2 * delay], attempts := 2 }
      | .fail =>
          { result := .error .fail, lastRequestTime := lastRequestTime
            waits := preWaits ++ [2 * delay], attempts := 2 }
  | .fail =>
      { result := .error .fail, lastRequestTime := lastRequestTime
        waits := preWaits, attempts := 1 }

/-! ## snipeService.js — data model of the Snipe-IT side

The remote Snipe-IT server is modelled as always reachable and well-behaved:
a listing returns its current records, a create appends a record echoing the
requested fields with a fresh id, an update rewrites the addressed record and
echoes it.  A missing nested `manufacturer` object (or a JS-falsy
`manufacturer.id`) on a model record is modelled by `id = 0`, matching the
source's falsy checks. -/

/-- A Snipe-IT manufacturer record. -/
structure Manufacturer where
  id : Nat
  name : String
deriving Repr, DecidableEq

/-- A Snipe-IT category record. -/
structure Category where
  id : Nat
  name : String
deriving Repr, DecidableEq

/-- A Snipe-IT model record, with its nested manufacturer and category
objects as the API returns them. -/
structure ModelRec where
  id : Nat
  name : String
  manufacturer : Manufacturer
  category : Category
  model_number : String := ""
deriving Repr, DecidableEq

/-- A Snipe-IT hardware asset record (the fields the sync reads/writes). -/
structure Asset where
  id : Nat
  name : String
  serial : String
  modelId : Nat
  manufacturerId : Nat
  model_number : String
deriving Repr, DecidableEq

/-- The durable state of the Snipe-IT server. -/
structure Server where
  manufacturers : List Manufacturer
  categories : List Category
  models : List ModelRec
  assets : List Asset
  nextId : Nat
deriving Repr, DecidableEq

/-- HTTP method of an outbound call. -/
inductive Method where
  | get
  | post
  | put
  | patch
deriving Repr, DecidableEq

/-- Snipe-IT resource addressed by an outbound call. -/
inductive Resource where
  | manufacturers
  | categories
  | models
  | hardware
deriving Repr, DecidableEq

/-- One outbound request through the rate-limited gate: method, resource,
the record id for `/<resource>/<id>` routes, and for creations the `name`
field of the posted body (used to count creations per name). -/
structure ApiCall where
  method : Method
  resource : Resource
  objId : Option Nat := none
  tag : Option String := none
deriving Repr, DecidableEq

/-- A JS `Map` keyed by string: association list where `set` replaces any
existing entry for the key. -/
def mget {α : Type} (k : String) (m : List (String × α)) : Option α :=
  (m.find? fun p => p.1 == k).map fun p => p.2

/-- `Map.set`: one entry per key (the previous entry for `k`, if any, is
dropped). -/
def mset {α : Type} (k : String) (v : α) (m : List (String × α)) : List (String × α) :=
  (k, v) :: m.filter fun p => p.1 != k

/-- Build a `Map` by `set`ting every record keyed by lowercased name
(`records.forEach(r => cache.set(r.name.toLowerCase(), r))`). -/
def buildByName {α : Type} (nameOf : α → String) (records : List α) :
    List (String × α) :=
  records.foldl (fun acc r => mset (strToLower (nameOf r)) r acc) []

/-- Mutable state of one run: the remote server, the `SnipeService` instance
caches, the per-run lookup maps built in `syncDevices`, and the trace of
outbound calls issued so far. -/
structure St where
  server : Server
  manufacturerCache : List (String × Manufacturer) := []
  modelCache : List (String × ModelRec) := []
  categoryCache : List (String × Category) := []
  manufacturersByName : List (String × Manufacturer) := []
  modelsByName : List (String × ModelRec) := []
  assetsBySerial : List (String × Asset) := []
  calls : List ApiCall := []
deriving Repr, DecidableEq

/-- Record one outbound request in the trace. -/
def emit (c : ApiCall) (st : St) : St :=
  { st with calls := st.calls ++ [c] }

/-- Name of the server-side manufacturer with the given id (`""` if none):
used when the server echoes a nested manufacturer object. -/
def serverMfrName (srv : Server) (mid : Nat) : String :=
  ((srv.manufacturers.find? fun m => m.id == mid).map fun m => m.name).getD ""

/-- Name of the server-side category with the given id (`""` if none). -/
def serverCatName (srv : Server) (cid : Nat) : String :=
  ((srv.categories.find? fun c => c.id == cid).map fun c => c.name).getD ""

/-! ### Manufacturers -/

/-- `SnipeService.getManufacturers`: one GET, cache cleared and rebuilt from
the listing. -/
def getManufacturers (st : St) : List Manufacturer × St :=
  let st := emit { method := .get, resource := .manufacturers } st
  let manufacturers := st.server.manufacturers
  (manufacturers, { st with manufacturerCache := buildByName (fun m => m.name) manufacturers })

/-- `SnipeService.createManufacturer`: one POST; the created record is
inserted into the instance cache under the requested name, lowercased. -/
def createManufacturer (manufacturerName : String) (st : St) : Manufacturer × St :=
  let st := emit { method := .post, resource := .manufacturers, tag := some manufacturerName } st
  let newManufacturer : Manufacturer := { id := st.server.nextId, name := manufacturerName }
  let st :=
    { st with
      server :=
        { st.server with
          manufacturers := st.server.manufacturers ++ [newManufacturer]
          nextId := st.server.nextId + 1 }
      manufacturerCache := mset (strToLower manufacturerName) newManufacturer st.manufacturerCache }
  (newManufacturer, st)

/-- `SnipeService.getOrCreateManufacturer`: empty name falls back to
`"Unknown Manufacturer"`; cache hit returns, miss creates. -/
def getOrCreateManufacturer (manufacturerName : String) (st : St) : Manufacturer × St :=
  let manufacturerName := jsOr manufacturerName "Unknown Manufacturer"
  match mget (strToLower manufacturerName) st.manufacturerCache with
  | some cachedManufacturer => (cachedManufacturer, st)
  | none => createManufacturer manufacturerName st

/-! ### Categories -/

/-- `SnipeService.getCategories`: one GET, cache cleared and rebuilt. -/
def getCategories (st : St) : List Category × St :=
  let st := emit { method := .get, resource := .categories } st
  let categories := st.server.categories
  (categories, { st with categoryCache := buildByName (fun c => c.name) categories })

/-- `SnipeService.createCategory`: one POST; the server echoes the created
record, which is cached under its (returned) name, lowercased. -/
def createCategory (categoryName : String) (st : St) : Category × St :=
  let st := emit { method := .post, resource := .categories, tag := some categoryName } st
  let newCategory : Category := { id := st.server.nextId, name := categoryName }
  let st :=
    { st with
      server :=
        { st.server with
          categories := st.server.categories ++ [newCategory]
          nextId := st.server.nextId + 1 }
      categoryCache := mset (strToLower newCategory.name) newCategory st.categoryCache }
  (newCategory, st)

/-- The fixed nodeClass → category-name table (`getExpectedCategoryName`,
duplicated inline in `getOrCreateAssetCategory`). -/
def getExpectedCategoryName (nodeClass : String) : String :=
  if nodeClass = "WINDOWS_SERVER" then "Windows Servers"
  else if nodeClass = "WINDOWS_WORKSTATION" then "Windows Workstations"
  else if nodeClass = "VMWARE_VM_HOST" then "VMware Hosts"
  else "Other Hardware"

/-- `SnipeService.getOrCreateAssetCategory`: map nodeClass to a category
name; cache hit returns; on a miss re-query the bulk listing and look again
(the `for … of this.categoryCache` loop is a lookup by lowercased name);
only then create. -/
def getOrCreateAssetCategory (nodeClass : String) (st : St) : Category × St :=
  let categoryName := getExpectedCategoryName nodeClass
  match mget (strToLower categoryName) st.categoryCache with
  | some cachedCategory => (cachedCategory, st)
  | none =>
      let (_, st) := getCategories st
      match mget (strToLower categoryName) st.categoryCache with
      | some category => (category, st)
      | none => createCategory categoryName st

/-- `SnipeService.isModelCategoryCorrect`. -/
def isModelCategoryCorrect (model : ModelRec) (nodeClass : String) : Bool :=
  strToLower model.category.name == strToLower (getExpectedCategoryName nodeClass)

/-! ### Models -/

/-- Body of a `PUT models/:id` request. -/
structure ModelUpdate where
  name : String
  manufacturer_id : Nat
  category_id : Nat
  model_number : String
deriving Repr, DecidableEq

/-- Server-side application of a model update; the API echoes the updated
record with its nested objects re-resolved. -/
def applyModelUpdate (srv : Server) (mid : Nat) (u : ModelUpdate) : ModelRec :=
  { id := mid
    name := u.name
    manufacturer := { id := u.manufacturer_id, name := serverMfrName srv u.manufacturer_id }
    category := { id := u.category_id, name := serverCatName srv u.category_id }
    model_number := u.model_number }

/-- `PUT models/:id` through the gate: the call is sent; if the id is
unknown to the server the request fails (HTTP error → axios throw). -/
def putModel (mid : Nat) (u : ModelUpdate) (st : St) : St × Except String ModelRec :=
  let st := emit { method := .put, resource := .models, objId := some mid } st
  if st.server.models.any fun m => m.id == mid then
    let updated := applyModelUpdate st.server mid u
    ({ st with
        server :=
          { st.server with
            models := st.server.models.map fun m => if m.id == mid then updated else m } },
      .ok updated)
  else (st, .error "model not found")

/-- `GET models/:id` through the gate (the defensive re-fetch in
`syncDeviceWithCache`); fails if the id is unknown to the server. -/
def getModelById (mid : Nat) (st : St) : St × Except String ModelRec :=
  let st := emit { method := .get, resource := .models, objId := some mid } st
  match st.server.models.find? fun m => m.id == mid with
  | some m => (st, .ok m)
  | none => (st, .error "model not found")

/-- `GET models?search=…` through the gate.  Modelled as returning the full
model listing — a superset of every name match, and the caller only inspects
the rows through an exact lowercased-name `find`. -/
def searchModels (_search : String) (st : St) : List ModelRec × St :=
  let st := emit { method := .get, resource := .models } st
  (st.server.models, st)

/-- `SnipeService.getModels`: one GET, instance cache cleared and rebuilt. -/
def getModels (st : St) : List ModelRec × St :=
  let st := emit { method := .get, resource := .models } st
  let models := st.server.models
  (models, { st with modelCache := buildByName (fun m => m.name) models })

/-- `SnipeService.createModel`: throws on a falsy `manufacturer_id`;
resolves the category for the nodeClass (throwing on a falsy category id);
one POST with `model_number = name`; the created record is inserted into the
instance model cache. -/
def createModel (modelName : String) (manufacturerId : Nat) (nodeClass : String)
    (st : St) : St × Except String ModelRec :=
  if manufacturerId == 0 then
    (st, .error "Cannot create model without a valid manufacturer_id")
  else
    let (category, st) := getOrCreateAssetCategory nodeClass st
    if category.id == 0 then (st, .error "Failed to get or create asset category")
    else
      let st := emit { method := .post, resource := .models, tag := some modelName } st
      let newModel : ModelRec :=
        { id := st.server.nextId
          name := modelName
          manufacturer := { id := manufacturerId, name := serverMfrName st.server manufacturerId }
          category := category
          model_number := modelName }
      let st :=
        { st with
          server :=
            { st.server with
              models := st.server.models ++ [newModel]
              nextId := st.server.nextId + 1 }
          modelCache := mset (strToLower modelName) newModel st.modelCache }
      (st, .ok newModel)

/-- `SnipeService.getOrCreateModel`: empty name falls back to
`"Unknown Model"`; resolves the expected category, searches by name, matches
any row with the same lowercased name regardless of manufacturer, updates it
when its category or manufacturer disagrees, otherwise creates. -/
def getOrCreateModel (modelName : String) (manufacturerId : Nat) (nodeClass : String)
    (st : St) : St × Except String ModelRec :=
  let modelName := jsOr modelName "Unknown Model"
  let (expectedCategory, st) := getOrCreateAssetCategory nodeClass st
  let (rows, st) := searchModels modelName st
  match rows.find? fun m => (strToLower m.name) == (strToLower modelName) with
  | some existingModel =>
      if existingModel.category.id != expectedCategory.id
          || existingModel.manufacturer.id != manufacturerId then
        let u : ModelUpdate :=
          { name := modelName, manufacturer_id := manufacturerId
            category_id := expectedCategory.id, model_number := modelName }
        match putModel existingModel.id u st with
        | (st, .ok updatedModel) =>
            ({ st with modelCache := mset (strToLower modelName) updatedModel st.modelCache },
              .ok updatedModel)
        | (st, .error e) => (st, .error e)
      else
        ({ st with modelCache := mset (strToLower modelName) existingModel st.modelCache },
          .ok existingModel)
  | none => createModel modelName manufacturerId nodeClass st

/-! ### Reconciliation of one device -/

/-- The two always-refreshed custom fields. -/
structure CustomFields where
  processor_count : Nat
  memory : Nat
deriving Repr, DecidableEq

/-- `Math.round(totalPhysicalMemory / (1024*1024*1024))`: memory in whole
GiB, half rounded up (exact on integer byte counts). -/
def memGiB (bytes : Nat) : Nat := (bytes + 536870912) / 1073741824

/-- The notes field stamped on every create/patch:
`Last synced from Ninja RMM: <timestamp>\nDomain: …\nRole: …`. -/
def syncNotes (now : Nat) (device : DeviceDetails) : String :=
  "Last synced from Ninja RMM: " ++ toString now
    ++ "\nDomain: " ++ device.system.domain
    ++ "\nRole: " ++ device.system.domainRole

/-- The patch body built by `getChangedFields`: a JS object whose four
diffed keys are present or absent, plus the two unconditionally assigned
keys (`some` ⇔ the key is present on the object). -/
structure ChangedFields where
  name : Option String
  model_id : Option Nat
  manufacturer_id : Option Nat
  model_number : Option String
  custom_fields : Option CustomFields
  notes : Option String
deriving Repr, DecidableEq

/-- Number of keys present on the patch object (`Object.keys(...).length`). -/
def patchKeyCount (c : ChangedFields) : Nat :=
  (if c.name.isSome then 1 else 0)
    + (if c.model_id.isSome then 1 else 0)
    + (if c.manufacturer_id.isSome then 1 else 0)
    + (if c.model_number.isSome then 1 else 0)
    + (if c.custom_fields.isSome then 1 else 0)
    + (if c.notes.isSome then 1 else 0)

/-- `SnipeService.getChangedFields`: the four structural fields are included
iff they differ from the existing asset; custom fields and notes are always
assigned. -/
def getChangedFields (device : DeviceDetails) (existingAsset : Asset)
    (model : ModelRec) (manufacturer : Manufacturer) (now : Nat) : ChangedFields :=
  { name := if device.systemName != existingAsset.name then some device.systemName else none
    model_id := if model.id != existingAsset.modelId then some model.id else none
    manufacturer_id :=
      if manufacturer.id != existingAsset.manufacturerId then some manufacturer.id else none
    model_number :=
      if device.system.model != existingAsset.model_number then some device.system.model else none
    custom_fields :=
      some { processor_count := device.system.numberOfProcessors
             memory := memGiB device.system.totalPhysicalMemory }
    notes := some (syncNotes now device) }

/-- `SnipeService.createAssetData`: the full creation payload. -/
structure AssetData where
  status_id : Nat
  model_id : Nat
  name : String
  serial : String
  manufacturer_id : Nat
  model_number : String
  notes : String
  custom_fields : CustomFields
deriving Repr, DecidableEq

/-- `SnipeService.createAssetData`. -/
def createAssetData (device : DeviceDetails) (model : ModelRec)
    (manufacturer : Manufacturer) (now : Nat) : AssetData :=
  { status_id := 1
    model_id := model.id
    name := device.systemName
    serial := device.system.serialNumber
    manufacturer_id := manufacturer.id
    model_number := device.system.model
    notes := syncNotes now device
    custom_fields :=
      { processor_count := device.system.numberOfProcessors
        memory := memGiB device.system.totalPhysicalMemory } }

/-- Server-side application of a hardware patch. -/
def applyAssetPatch (a : Asset) (c : ChangedFields) : Asset :=
  { a with
    name := c.name.getD a.name
    modelId := (c.model_id).getD a.modelId
    manufacturerId := (c.manufacturer_id).getD a.manufacturerId
    model_number := (c.model_number).getD a.model_number }

/-- Server-side record for a freshly created hardware asset. -/
def serverNewAsset (aid : Nat) (d : AssetData) : Asset :=
  { id := aid, name := d.name, serial := d.serial
    modelId := d.model_id, manufacturerId := d.manufacturer_id
    model_number := d.model_number }

/-- Tail of `SnipeService.syncDeviceWithCache` (the create-or-patch decision
for the asset itself, source lines 853–877): look the device's lowercased
serial up in `assetsBySerial`; present ⇒ patch when the patch object is
non-empty, else log "no changes needed"; absent ⇒ POST a full creation
payload.  Neither path writes `assetsBySerial` back. -/
def syncAssetStep (device : DeviceDetails) (now : Nat) (model : ModelRec)
    (manufacturer : Manufacturer) (st : St) : St × Except String Unit :=
  match mget (strToLower device.system.serialNumber) st.assetsBySerial with
  | some existingAsset =>
      let changedFields := getChangedFields device existingAsset model manufacturer now
      if patchKeyCount changedFields > 0 then
        let st := emit { method := .patch, resource := .hardware, objId := some existingAsset.id } st
        ({ st with
            server :=
              { st.server with
                assets := st.server.assets.map fun a =>
                  if a.id == existingAsset.id then applyAssetPatch a changedFields else a } },
          .ok ())
      else (st, .ok ())
  | none =>
      let assetData := createAssetData device model manufacturer now
      let st := emit { method := .post, resource := .hardware, tag := some assetData.name } st
      ({ st with
          server :=
            { st.server with
              assets := st.server.assets ++ [serverNewAsset st.server.nextId assetData]
              nextId := st.server.nextId + 1 } },
        .ok ())

/-- Model-resolution-and-asset phase of `SnipeService.syncDeviceWithCache`
(everything after the manufacturer lookup): resolve the model (cached branch
with defensive re-fetch and drift update; search branch matching solely by
lowercased name with the same drift update; create as a last resort), then
run the asset create-or-patch step.  Every cache mutation performed before a
throw is kept. -/
def syncModelPhase (device : DeviceDetails) (now : Nat) (manufacturer : Manufacturer)
    (st1 : St) : St × Except String Unit :=
  let modelKey := (strToLower device.system.model)
  match mget modelKey st1.modelsByName with
  | some cachedModel =>
      let fetched : St × Except String ModelRec :=
        if cachedModel.manufacturer.id == 0 then
          match getModelById cachedModel.id st1 with
          | (st, .ok m) => ({ st with modelsByName := mset modelKey m st.modelsByName }, .ok m)
          | (st, .error e) => (st, .error e)
        else (st1, .ok cachedModel)
      match fetched with
      | (st2, .error e) => (st2, .error e)
      | (st2, .ok model) =>
          if model.manufacturer.id != manufacturer.id
              || !isModelCategoryCorrect model device.nodeClass then
            let (category, st3) := getOrCreateAssetCategory device.nodeClass st2
            let u : ModelUpdate :=
              { name := device.system.model, manufacturer_id := manufacturer.id
                category_id := category.id, model_number := device.system.model }
            match putModel model.id u st3 with
            | (st4, .ok updated) =>
                let st5 := { st4 with modelsByName := mset modelKey updated st4.modelsByName }
                syncAssetStep device now updated manufacturer st5
            | (st4, .error e) => (st4, .error e)
          else syncAssetStep device now model manufacturer st2
  | none =>
      let (rows, st2) := searchModels device.system.model st1
      match rows.find? fun m => (strToLower m.name) == (strToLower device.system.model) with
      | some existingModel =>
          let st3 := { st2 with modelsByName := mset modelKey existingModel st2.modelsByName }
          if existingModel.manufacturer.id != manufacturer.id
              || !isModelCategoryCorrect existingModel device.nodeClass then
            let (category, st4) := getOrCreateAssetCategory device.nodeClass st3
            let u : ModelUpdate :=
              { name := device.system.model, manufacturer_id := manufacturer.id
                category_id := category.id, model_number := device.system.model }
            match putModel existingModel.id u st4 with
            | (st5, .ok updated) =>
                let st6 := { st5 with modelsByName := mset modelKey updated st5.modelsByName }
                syncAssetStep device now updated manufacturer st6
            | (st5, .error e) => (st5, .error e)
          else syncAssetStep device now existingModel manufacturer st3
      | none =>
          match createModel device.system.model manufacturer.id device.nodeClass st2 with
          | (st3, .ok model) =>
              let st4 := { st3 with modelsByName := mset modelKey model st3.modelsByName }
              syncAssetStep device now model manufacturer st4
          | (st3, .error e) => (st3, .error e)

/-- `SnipeService.syncDeviceWithCache`: resolve the manufacturer through the
per-run map (create on miss), then run the model-resolution and asset phase
(`syncModelPhase`). -/
def syncDeviceWithCache (device : DeviceDetails) (now : Nat) (st0 : St) :
    St × Except String Unit :=
  let mfrKey := (strToLower device.system.manufacturer)
  let (manufacturer, st1) :=
    match mget mfrKey st0.manufacturersByName with
    | some m => (m, st0)
    | none =>
        let (m, st) := createManufacturer device.system.manufacturer st0
        (m, { st with manufacturersByName := mset mfrKey m st.manufacturersByName })
  syncModelPhase device now manufacturer st1

/-! ### The run -/

/-- Bulk pre-load at the start of `SnipeService.syncDevices`: one GET per
reference type and one for hardware, then the three per-run lookup maps. -/
def preloadCaches (st : St) : St :=
  let (_categories, st) := getCategories st
  let (manufacturers, st) := getManufacturers st
  let (models, st) := getModels st
  let st := emit { method := .get, resource := .hardware } st
  let existingAssets := st.server.assets
  { st with
    assetsBySerial := buildByName (fun a => a.serial) existingAssets
    modelsByName := buildByName (fun m => m.name) models
    manufacturersByName := buildByName (fun m => m.name) manufacturers }

/-- The per-device loop of `syncDevices`: each device is synced in order,
a per-device error is caught and logged and the loop continues.  The second
component counts the devices whose sync completed without error (the run
only logs this; the count instruments the spec's notion of "successfully
processed"). -/
def syncLoop (devices : List DeviceDetails) (now : Nat) (st : St) : St × Nat × Nat :=
  match devices with
  | [] => (st, 0, 0)
  | device :: rest =>
      match syncDeviceWithCache device now st with
      | (st', .ok _) =>
          let (stFin, ok, err) := syncLoop rest now st'
          (stFin, ok + 1, err)
      | (st', .error _) =>
          let (stFin, ok, err) := syncLoop rest now st'
          (stFin, ok, err + 1)

/-- `SnipeService.syncDevices`: bulk pre-load, then the per-device loop. -/
def syncDevices (devices : List DeviceDetails) (now : Nat) (st : St) : St :=
  (syncLoop devices now (preloadCaches st)).1

/-- Fresh `SnipeService` instance state for a run against a given server
(the handler constructs the services anew on every trigger). -/
def initialSt (server : Server) : St := { server := server }

/-- The scheduled entry point (`getDevices` handler): process the raw Ninja
listing, sync, and return `processedDevices.length` as the summary count. -/
def getDevicesHandler (rawDevices : List RawDevice) (now : Nat) (server : Server) :
    Nat × St :=
  let processedDevices := processDevices rawDevices
  let st := syncDevices processedDevices now (initialSt server)
  (processedDevices.length, st)

/-- The number of devices whose per-device sync succeeded in the run the
handler performs. -/
def runSucceededCount (rawDevices : List RawDevice) (now : Nat) (server : Server) : Nat :=
  (syncLoop (processDevices rawDevices) now (preloadCaches (initialSt server))).2.1

/-- The number of devices whose per-device sync raised an error in that run. -/
def runFailedCount (rawDevices : List RawDevice) (now : Nat) (server : Server) : Nat :=
  (syncLoop (processDevices rawDevices) now (preloadCaches (initialSt server))).2.2

/-! ## Trace observations -/

/-- Number of `POST categories` calls whose posted name is `n`
(category-creation calls for that name). -/
def catPostsFor (n : String) (l : List ApiCall) : Nat :=
  (l.filter fun c =>
    c.method == .post && c.resource == .categories && c.tag == some n).length

/-- Number of `PUT models/:id` calls (model updates). -/
def putModelCalls (l : List ApiCall) : Nat :=
  (l.filter fun c => c.method == .put && c.resource == .models).length

/-- Number of `POST models` calls (model creations). -/
def postModelCalls (l : List ApiCall) : Nat :=
  (l.filter fun c => c.method == .post && c.resource == .models).length

/-- Does the server hold a category whose lowercased name is that of `n`? -/
def serverHasCat (n : String) (st : St) : Bool :=
  st.server.categories.any fun c => strToLower c.name == strToLower n

/-- A sequence of category resolutions within one run (the per-device loop
and `createModel` both go through `getOrCreateAssetCategory`). -/
def runCategoryCalls : List String → St → St
  | [], st => st
  | nc :: rest, st => runCategoryCalls rest (getOrCreateAssetCategory nc st).2

/-- The calls a state transition appended to the trace, all satisfying `P`:
used to delimit what part of the API a code path may touch. -/
def NewCalls (st st' : St) (P : ApiCall → Prop) : Prop :=
  ∃ ext, st'.calls = st.calls ++ ext ∧ ∀ c ∈ ext, P c

/-- The only writes the system may ever address to the manufacturers
endpoint are creations: a manufacturers call is a GET or a POST. -/
def MfrSafe (c : ApiCall) : Prop :=
  c.resource = .manufacturers → c.method = .get ∨ c.method = .post

/-! ## Concrete run inputs used by counterexamples and witnesses -/

/-- A server whose listing contains a manufacturer record with a JS-falsy id
(`0`): resolving a device of that manufacturer makes `createModel` throw
(`if (!manufacturer_id) throw`), so the device's sync fails. -/
def failingServer : Server :=
  { manufacturers := [{ id := 0, name := "Acme" }]
    categories := []
    models := []
    assets := []
    nextId := 1 }

/-- System block of the device whose sync fails against `failingServer`. -/
def failingSystem : SystemInfo :=
  { name := "PC1"
    manufacturer := "Acme"
    model := "M1"
    biosSerialNumber := "B"
    serialNumber := "SN1"
    domain := "d"
    domainRole := "r"
    numberOfProcessors := 1
    totalPhysicalMemory := 0
    virtualMachine := false
    chassisType := "x" }

/-- The raw device whose sync fails against `failingServer`. -/
def failingRawDevice : RawDevice :=
  { id := 1, systemName := "PC1", nodeClass := "WINDOWS_WORKSTATION"
    system := some failingSystem }

/-- Concrete manufacturer used by the reconciliation scenarios. -/
def dellMfr : Manufacturer := { id := 1, name := "Dell" }

/-- Concrete category (the correct one for `WINDOWS_SERVER`). -/
def wsCategory : Category := { id := 3, name := "Windows Servers" }

/-- Concrete model, bound to `dellMfr` and `wsCategory`. -/
def optiModel : ModelRec :=
  { id := 2
    name := "OptiPlex"
    manufacturer := dellMfr
    category := wsCategory
    model_number := "OptiPlex" }

/-- An existing asset whose `serial` is the empty string. -/
def emptySerialAsset : Asset :=
  { id := 77
    name := "x"
    serial := ""
    modelId := 2
    manufacturerId := 1
    model_number := "OptiPlex" }

/-- System block of a device whose own serial number is empty. -/
def hostSystem : SystemInfo :=
  { name := "HOST5"
    manufacturer := "Dell"
    model := "OptiPlex"
    biosSerialNumber := "Unknown"
    serialNumber := ""
    domain := "d"
    domainRole := "r"
    numberOfProcessors := 2
    totalPhysicalMemory := 8589934592
    virtualMachine := false
    chassisType := "Desktop" }

/-- A canonical device whose serial number is the empty string. -/
def hostDevice : DeviceDetails :=
  { id := 5, systemName := "HOST5", nodeClass := "WINDOWS_SERVER", system := hostSystem }

/-- A second manufacturer, owner of the drifted model record. -/
def hpMfr : Manufacturer := { id := 9, name := "HP" }

/-- A model record whose manufacturer (`hpMfr`) differs from the one the
device resolves (`dellMfr`): the drift-correction scenario. -/
def driftModel : ModelRec :=
  { id := 2
    name := "OptiPlex"
    manufacturer := hpMfr
    category := wsCategory
    model_number := "OptiPlex" }

/-- Run state for the drift scenario: the model cache holds `driftModel`
under the device's model name, and the server knows the model. -/
def driftSt : St :=
  { server :=
      { manufacturers := [dellMfr, hpMfr]
        categories := [wsCategory]
        models := [driftModel]
        assets := []
        nextId := 100 }
    manufacturersByName := [("dell", dellMfr)]
    modelsByName := [("optiplex", driftModel)]
    assetsBySerial := [] }

/-- Run state for the search scenario: the model cache is cold, the server
holds the same-named model `driftModel` owned by a different manufacturer. -/
def searchSt : St :=
  { server :=
      { manufacturers := [dellMfr, hpMfr]
        categories := [wsCategory]
        models := [driftModel]
        assets := []
        nextId := 100 }
    manufacturersByName := [("dell", dellMfr)]
    modelsByName := []
    assetsBySerial := [] }

/-- A Snipe-IT server with no records at all. -/
def emptyServer : Server :=
  { manufacturers := [], categories := [], models := [], assets := [], nextId := 1 }

/-- A run state whose assets-by-serial map holds an entry under the empty
key, with manufacturer and model caches already warm (no drift). -/
def emptySerialSt : St :=
  { server :=
      { manufacturers := [dellMfr]
        categories := [wsCategory]
        models := [optiModel]
        assets := [emptySerialAsset]
        nextId := 100 }
    manufacturersByName := [("dell", dellMfr)]
    modelsByName := [("optiplex", optiModel)]
    assetsBySerial := [("", emptySerialAsset)] }

/-! ## Theorems -/

/-! ### Association-map and trace-counting lemmas -/

theorem find?_filter_ne {α : Type} (k k' : String) (h : k' ≠ k) (m : List (String × α)) :
    (m.filter fun p => p.1 != k').find? (fun p => p.1 == k) =
      m.find? fun p => p.1 == k := by
  induction m with
  | nil => rfl
  | cons p rest ih =>
      by_cases hp : p.1 = k'
      · have h1 : (p.1 != k') = false := by simp [hp]
        have h2 : (p.1 == k) = false := by
          simp only [beq_eq_false_iff_ne, ne_eq]
          rw [hp]
          exact h
        simp [List.filter_cons, h1, List.find?_cons, h2, ih]
      · have h1 : (p.1 != k') = true := by simp [hp]
        by_cases hk : p.1 = k
        · have h2 : (p.1 == k) = true := by simp [hk]
          simp [List.filter_cons, h1, List.find?_cons, h2]
        · have h2 : (p.1 == k) = false := by simp [hk]
          simp [List.filter_cons, h1, List.find?_cons, h2, ih]

theorem mget_mset {α : Type} (k k' : String) (v : α) (m : List (String × α)) :
    mget k (mset k' v m) = if k' = k then some v else mget k m := by
  by_cases h : k' = k
  · simp [mget, mset, List.find?_cons, h]
  · simp only [mget, mset, List.find?_cons, if_neg h]
    have hb : (k' == k) = false := by simpa using h
    simp only [hb, cond_false]
    rw [find?_filter_ne k k' h m]

theorem mget_mset_self {α : Type} (k : String) (v : α) (m : List (String × α)) :
    mget k (mset k v m) = some v := by
  simp [mget_mset]

theorem mset_keys_nodup {α : Type} (k : String) (v : α) (m : List (String × α))
    (h : (m.map Prod.fst).Nodup) : ((mset k v m).map Prod.fst).Nodup := by
  simp only [mset, List.map_cons, List.nodup_cons]
  refine ⟨?_, ?_⟩
  · intro hk
    simp only [List.mem_map] at hk
    rcases hk with ⟨p, hp, hpk⟩
    rcases List.mem_filter.mp hp with ⟨_, hne⟩
    rw [hpk] at hne
    simp at hne
  · exact ((List.filter_sublist m).map Prod.fst).nodup h

theorem mget_foldl_mset_none {α : Type} (nameOf : α → String) (l : List α) (k : String) :
    ∀ acc : List (String × α),
      mget k (l.foldl (fun a r => mset (strToLower (nameOf r)) r a) acc) = none ↔
        (mget k acc = none ∧ ∀ r ∈ l, strToLower (nameOf r) ≠ k) := by
  induction l with
  | nil => intro acc; simp
  | cons r rest ih =>
      intro acc
      rw [List.foldl_cons, ih]
      rw [mget_mset]
      constructor
      · rintro ⟨h1, h2⟩
        by_cases hk : strToLower (nameOf r) = k
        · rw [if_pos hk] at h1; exact absurd h1 (by simp)
        · rw [if_neg hk] at h1
          refine ⟨h1, ?_⟩
          intro x hx
          rcases List.mem_cons.mp hx with hx1 | hx2
          · rw [hx1]; exact hk
          · exact h2 x hx2
      · rintro ⟨h1, h2⟩
        have hk : strToLower (nameOf r) ≠ k := h2 r (by simp)
        exact ⟨by rw [if_neg hk]; exact h1, fun x hx => h2 x (by simp [hx])⟩

theorem mget_buildByName_none {α : Type} (nameOf : α → String) (l : List α) (k : String) :
    mget k (buildByName nameOf l) = none ↔ ∀ r ∈ l, strToLower (nameOf r) ≠ k := by
  unfold buildByName
  rw [mget_foldl_mset_none]
  simp [mget]

theorem count_zero_of_all {p : ApiCall → Bool} {ext : List ApiCall}
    (h : ∀ c ∈ ext, p c = false) : (ext.filter p).length = 0 := by
  have : ext.filter p = [] := List.filter_eq_nil_iff.mpr (by simpa using h)
  simp [this]

theorem putModelCalls_append (l l' : List ApiCall) :
    putModelCalls (l ++ l') = putModelCalls l + putModelCalls l' := by
  simp [putModelCalls, List.filter_append]

theorem postModelCalls_append (l l' : List ApiCall) :
    postModelCalls (l ++ l') = postModelCalls l + postModelCalls l' := by
  simp [postModelCalls, List.filter_append]

theorem catPostsFor_append (n : String) (l l' : List ApiCall) :
    catPostsFor n (l ++ l') = catPostsFor n l + catPostsFor n l' := by
  simp [catPostsFor, List.filter_append]

theorem NewCalls.refl' (st : St) (P : ApiCall → Prop) : NewCalls st st P :=
  ⟨[], by simp, by simp⟩

theorem NewCalls.trans' {st1 st2 st3 : St} {P : ApiCall → Prop}
    (h1 : NewCalls st1 st2 P) (h2 : NewCalls st2 st3 P) : NewCalls st1 st3 P := by
  rcases h1 with ⟨e1, he1, hp1⟩
  rcases h2 with ⟨e2, he2, hp2⟩
  refine ⟨e1 ++ e2, by simp [he2, he1], ?_⟩
  intro c hc
  rcases List.mem_append.mp hc with h | h
  · exact hp1 c h
  · exact hp2 c h

theorem NewCalls.mono' {st st' : St} {P Q : ApiCall → Prop}
    (hpq : ∀ c, P c → Q c) (h : NewCalls st st' P) : NewCalls st st' Q := by
  rcases h with ⟨e, he, hp⟩
  exact ⟨e, he, fun c hc => hpq c (hp c hc)⟩

/-! ### Per-operation effect lemmas -/

theorem getCategories_effects (st : St) :
    (getCategories st).2.calls =
      st.calls ++ [{ method := .get, resource := .categories }]
    ∧ (getCategories st).2.server = st.server
    ∧ (getCategories st).2.categoryCache =
        buildByName (fun c => c.name) st.server.categories
    ∧ (getCategories st).2.modelsByName = st.modelsByName
    ∧ (getCategories st).2.manufacturersByName = st.manufacturersByName
    ∧ (getCategories st).2.assetsBySerial = st.assetsBySerial :=
  ⟨rfl, rfl, rfl, rfl, rfl, rfl⟩

theorem createCategory_effects (n : String) (st : St) :
    (createCategory n st).1 = { id := st.server.nextId, name := n }
    ∧ (createCategory n st).2.calls =
        st.calls ++ [{ method := .post, resource := .categories, tag := some n }]
    ∧ (createCategory n st).2.server.categories =
        st.server.categories ++ [{ id := st.server.nextId, name := n }]
    ∧ (createCategory n st).2.server.models = st.server.models
    ∧ (createCategory n st).2.server.assets = st.server.assets
    ∧ (createCategory n st).2.server.manufacturers = st.server.manufacturers
    ∧ (createCategory n st).2.categoryCache =
        mset (strToLower n) { id := st.server.nextId, name := n } st.categoryCache
    ∧ (createCategory n st).2.modelsByName = st.modelsByName
    ∧ (createCategory n st).2.manufacturersByName = st.manufacturersByName
    ∧ (createCategory n st).2.assetsBySerial = st.assetsBySerial :=
  ⟨rfl, rfl, rfl, rfl, rfl, rfl, rfl, rfl, rfl, rfl⟩

theorem createManufacturer_effects (n : String) (st : St) :
    (createManufacturer n st).1 = { id := st.server.nextId, name := n }
    ∧ (createManufacturer n st).2.calls =
        st.calls ++ [{ method := .post, resource := .manufacturers, tag := some n }]
    ∧ (createManufacturer n st).2.server.models = st.server.models
    ∧ (createManufacturer n st).2.server.categories = st.server.categories
    ∧ (createManufacturer n st).2.modelsByName = st.modelsByName
    ∧ (createManufacturer n st).2.manufacturersByName = st.manufacturersByName
    ∧ (createManufacturer n st).2.assetsBySerial = st.assetsBySerial
    ∧ (createManufacturer n st).2.categoryCache = st.categoryCache :=
  ⟨rfl, rfl, rfl, rfl, rfl, rfl, rfl, rfl⟩

theorem searchModels_effects (s : String) (st : St) :
    (searchModels s st).1 = st.server.models
    ∧ (searchModels s st).2 =
        emit { method := .get, resource := .models } st :=
  ⟨rfl, rfl⟩

theorem getModelById_state (mid : Nat) (st : St) :
    (getModelById mid st).1 =
      emit { method := .get, resource := .models, objId := some mid } st := by
  unfold getModelById
  rcases h : (emit { method := .get, resource := .models, objId := some mid }
      st).server.models.find? fun m => m.id == mid with _ | m <;> simp [h]

theorem putModel_calls (mid : Nat) (u : ModelUpdate) (st : St) :
    (putModel mid u st).1.calls =
      st.calls ++ [{ method := .put, resource := .models, objId := some mid }] := by
  simp only [putModel, emit]
  split <;> simp

theorem putModel_success (mid : Nat) (u : ModelUpdate) (st : St)
    (h : (st.server.models.any fun m => m.id == mid) = true) :
    (putModel mid u st).2 = .ok (applyModelUpdate st.server mid u)
    ∧ (putModel mid u st).1.modelsByName = st.modelsByName
    ∧ (putModel mid u st).1.manufacturersByName = st.manufacturersByName
    ∧ (putModel mid u st).1.assetsBySerial = st.assetsBySerial
    ∧ (putModel mid u st).1.server.models =
        st.server.models.map
          (fun m => if m.id == mid then applyModelUpdate st.server mid u else m)
    ∧ (putModel mid u st).1.server.assets = st.server.assets := by
  simp only [putModel, emit]
  simp only [h, if_true]
  refine ⟨?_, ?_, ?_, ?_, ?_, ?_⟩ <;> first | trivial | rfl | simp

theorem getOrCreateAssetCategory_effects (nc : String) (st : St) :
    NewCalls st (getOrCreateAssetCategory nc st).2 (fun c => c.resource = .categories)
    ∧ (getOrCreateAssetCategory nc st).2.server.models = st.server.models
    ∧ (getOrCreateAssetCategory nc st).2.server.assets = st.server.assets
    ∧ (getOrCreateAssetCategory nc st).2.server.manufacturers = st.server.manufacturers
    ∧ (getOrCreateAssetCategory nc st).2.server.nextId ≥ st.server.nextId
    ∧ (getOrCreateAssetCategory nc st).2.modelsByName = st.modelsByName
    ∧ (getOrCreateAssetCategory nc st).2.manufacturersByName = st.manufacturersByName
    ∧ (getOrCreateAssetCategory nc st).2.assetsBySerial = st.assetsBySerial
    ∧ ∃ ext, (getOrCreateAssetCategory nc st).2.server.categories =
        st.server.categories ++ ext := by
  unfold getOrCreateAssetCategory
  rcases h1 : mget (strToLower (getExpectedCategoryName nc)) st.categoryCache with _ | c
  · simp only [h1, getCategories, emit]
    rcases h2 : mget (strToLower (getExpectedCategoryName nc))
        (buildByName (fun c => c.name) st.server.categories) with _ | c2
    · simp only [h2, createCategory, emit]
      refine ⟨⟨[{ method := .get, resource := .categories },
          { method := .post, resource := .categories,
            tag := some (getExpectedCategoryName nc) }], by simp, ?_⟩,
        ?_, ?_, ?_, ?_, ?_, ?_, ?_,
        ⟨[{ id := st.server.nextId, name := getExpectedCategoryName nc }], by simp⟩⟩
      · intro c hc
        rcases List.mem_cons.mp hc with h | h
        · rw [h]
        · rcases List.mem_cons.mp h with h | h
          · rw [h]
          · exact absurd h (List.not_mem_nil c)
      all_goals first | trivial | omega | simp
    · simp only [h2]
      refine ⟨⟨[{ method := .get, resource := .categories }], by simp, ?_⟩,
          ?_, ?_, ?_, ?_, ?_, ?_, ?_, ⟨[], by simp⟩⟩
      · intro c hc
        rcases List.mem_cons.mp hc with h | h
        · rw [h]
        · exact absurd h (List.not_mem_nil c)
      all_goals first | trivial | omega | simp
  · simp only [h1]
    refine ⟨NewCalls.refl' st _, ?_, ?_, ?_, ?_, ?_, ?_, ?_, ⟨[], by simp⟩⟩
    all_goals first | trivial | omega | simp

theorem syncAssetStep_effects (device : DeviceDetails) (now : Nat) (model : ModelRec)
    (manufacturer : Manufacturer) (st : St) :
    (syncAssetStep device now model manufacturer st).1.modelsByName = st.modelsByName
    ∧ (syncAssetStep device now model manufacturer st).1.manufacturersByName =
        st.manufacturersByName
    ∧ (syncAssetStep device now model manufacturer st).1.assetsBySerial =
        st.assetsBySerial
    ∧ (syncAssetStep device now model manufacturer st).1.server.models =
        st.server.models
    ∧ (syncAssetStep device now model manufacturer st).1.server.categories =
        st.server.categories
    ∧ ∃ ext, (syncAssetStep device now model manufacturer st).1.calls =
        st.calls ++ ext ∧ ∀ c ∈ ext, c.resource = .hardware := by
  unfold syncAssetStep
  rcases hma : mget (strToLower device.system.serialNumber) st.assetsBySerial with _ | a
  · simp only [hma, emit]
    refine ⟨by trivial, by trivial, by trivial, by trivial, by trivial,
      ⟨[{ method := .post, resource := .hardware,
          tag := some (createAssetData device model manufacturer now).name }], by simp, ?_⟩⟩
    intro c hc
    rcases List.mem_cons.mp hc with h | h
    · rw [h]
    · exact absurd h (List.not_mem_nil c)
  · simp only [hma]
    split
    · simp only [emit]
      refine ⟨by trivial, by trivial, by trivial, by trivial, by trivial,
        ⟨[{ method := .patch, resource := .hardware, objId := some a.id }], by simp, ?_⟩⟩
      intro c hc
      rcases List.mem_cons.mp hc with h | h
      · rw [h]
      · exact absurd h (List.not_mem_nil c)
    · exact ⟨rfl, rfl, rfl, rfl, rfl, ⟨[], by simp, by simp⟩⟩

theorem putModelCalls_zero {ext : List ApiCall}
    (h : ∀ c ∈ ext, c.resource ≠ .models) : putModelCalls ext = 0 := by
  unfold putModelCalls
  apply count_zero_of_all
  intro c hc
  have hb : (c.resource == Resource.models) = false := by simpa using h c hc
  simp [hb]

theorem postModelCalls_zero {ext : List ApiCall}
    (h : ∀ c ∈ ext, c.resource ≠ .models) : postModelCalls ext = 0 := by
  unfold postModelCalls
  apply count_zero_of_all
  intro c hc
  have hb : (c.resource == Resource.models) = false := by simpa using h c hc
  simp [hb]

/-! ### Category-creation accounting (for C6) -/

theorem gOCAC_catPosts_bound (nc n : String) (st : St) :
    catPostsFor n (getOrCreateAssetCategory nc st).2.calls ≤ catPostsFor n st.calls + 1
    ∧ (catPostsFor n st.calls < catPostsFor n (getOrCreateAssetCategory nc st).2.calls →
        serverHasCat n (getOrCreateAssetCategory nc st).2 = true)
    ∧ (serverHasCat n st = true →
        catPostsFor n (getOrCreateAssetCategory nc st).2.calls = catPostsFor n st.calls)
    ∧ (serverHasCat n st = true →
        serverHasCat n (getOrCreateAssetCategory nc st).2 = true) := by
  unfold getOrCreateAssetCategory
  rcases h1 : mget (strToLower (getExpectedCategoryName nc)) st.categoryCache with _ | c
  · simp only [h1, getCategories, emit]
    rcases h2 : mget (strToLower (getExpectedCategoryName nc))
        (buildByName (fun c => c.name) st.server.categories) with _ | c2
    · simp only [h2, createCategory, emit]
      have hnone := (mget_buildByName_none (fun c => c.name) st.server.categories
          (strToLower (getExpectedCategoryName nc))).mp h2
      by_cases hmn : getExpectedCategoryName nc = n
      · refine ⟨?_, ?_, ?_, ?_⟩
        · simp [catPostsFor, List.filter_append, hmn]
        · intro _
          simp [serverHasCat, List.any_append, hmn]
        · intro hs
          exfalso
          rcases List.any_eq_true.mp hs with ⟨cat, hcat, hb⟩
          exact hnone cat hcat (by rw [hmn]; exact beq_iff_eq.mp hb)
        · intro hs
          simp only [serverHasCat, List.any_append] at hs ⊢
          simp [hs]
      · have htag : ((some (getExpectedCategoryName nc) : Option String) == some n) = false := by
          simp [hmn]
        refine ⟨?_, ?_, ?_, ?_⟩
        · simp [catPostsFor, List.filter_append, htag]
        · intro hlt
          exfalso
          simp [catPostsFor, List.filter_append, htag] at hlt
        · intro _
          simp [catPostsFor, List.filter_append, htag]
        · intro hs
          simp only [serverHasCat, List.any_append] at hs ⊢
          simp [hs]
    · simp only [h2]
      refine ⟨?_, ?_, ?_, ?_⟩
      · simp [catPostsFor, List.filter_append]
      · intro hlt
        exfalso
        simp [catPostsFor, List.filter_append] at hlt
      · intro _
        simp [catPostsFor, List.filter_append]
      · intro hs
        exact hs
  · simp only [h1]
    refine ⟨?_, ?_, ?_, ?_⟩
    · omega
    · intro h
      exfalso
      omega
    · intro _
      trivial
    · intro hs
      exact hs

theorem runCategoryCalls_catPosts (n : String) (ncs : List String) :
    ∀ st : St,
      catPostsFor n (runCategoryCalls ncs st).calls ≤
        catPostsFor n st.calls + (if serverHasCat n st = true then 0 else 1) := by
  induction ncs with
  | nil =>
      intro st
      simp only [runCategoryCalls]
      split <;> omega
  | cons nc rest ih =>
      intro st
      simp only [runCategoryCalls]
      rcases gOCAC_catPosts_bound nc n st with ⟨hb1, hb2, hb3, hb4⟩
      have hrest := ih (getOrCreateAssetCategory nc st).2
      by_cases hsh : serverHasCat n st = true
      · rw [hb3 hsh, if_pos (hb4 hsh)] at hrest
        rw [if_pos hsh]
        omega
      · by_cases hsh' : serverHasCat n (getOrCreateAssetCategory nc st).2 = true
        · rw [if_pos hsh'] at hrest
          rw [if_neg hsh]
          omega
        · have hmid : catPostsFor n (getOrCreateAssetCategory nc st).2.calls ≤
              catPostsFor n st.calls := by
            by_contra hcon
            exact hsh' (hb2 (by omega))
          rw [if_neg hsh'] at hrest
          rw [if_neg hsh]
          omega

/-- **C6** — category resolution is idempotent: a second
`getOrCreateAssetCategory` with the same nodeClass returns the same Category
record (hence the same id), and across any sequence of category resolutions
in a run at most one category-creation call is issued for that nodeClass's
mapped category name. -/
theorem C6_category_resolution_idempotent (nc : String) (ncs : List String) (st : St) :
    (getOrCreateAssetCategory nc (getOrCreateAssetCategory nc st).2).1 =
      (getOrCreateAssetCategory nc st).1
    ∧ catPostsFor (getExpectedCategoryName nc) (runCategoryCalls ncs st).calls ≤
        catPostsFor (getExpectedCategoryName nc) st.calls + 1 := by
  constructor
  · unfold getOrCreateAssetCategory
    rcases h1 : mget (strToLower (getExpectedCategoryName nc)) st.categoryCache with _ | c
    · simp only [h1, getCategories, emit]
      rcases h2 : mget (strToLower (getExpectedCategoryName nc))
          (buildByName (fun c => c.name) st.server.categories) with _ | c2
      · simp only [h2, createCategory, emit]
        simp [mget_mset_self]
      · simp only [h2]
    · simp only [h1]
  · have h := runCategoryCalls_catPosts (getExpectedCategoryName nc) ncs st
    split at h <;> omega

/-- **C7** — for a cached model whose nested manufacturer id is present and
differs from the manufacturer resolved for the device, the per-device sync
issues exactly one model-update call (`PUT models/:id`), and the model it
re-caches carries the corrected manufacturer id (same model id). -/
theorem C7_cached_model_drift_update (device : DeviceDetails) (now : Nat) (st : St)
    (mfr : Manufacturer) (m0 : ModelRec)
    (hm : mget (strToLower device.system.manufacturer) st.manufacturersByName = some mfr)
    (hc : mget (strToLower device.system.model) st.modelsByName = some m0)
    (h0 : m0.manufacturer.id ≠ 0)
    (hd : m0.manufacturer.id ≠ mfr.id)
    (hs : (st.server.models.any fun m => m.id == m0.id) = true) :
    putModelCalls (syncDeviceWithCache device now st).1.calls =
      putModelCalls st.calls + 1
    ∧ ∃ updated : ModelRec,
        mget (strToLower device.system.model)
            (syncDeviceWithCache device now st).1.modelsByName = some updated
        ∧ updated.manufacturer.id = mfr.id
        ∧ updated.id = m0.id := by
  have hb0 : (m0.manufacturer.id == 0) = false := by simpa using h0
  have hbd : (m0.manufacturer.id != mfr.id) = true := by simpa using hd
  unfold syncDeviceWithCache syncModelPhase
  simp only [hm, hc, hb0, hbd, Bool.false_eq_true, if_false, Bool.true_or, if_true]
  rcases hg : getOrCreateAssetCategory device.nodeClass st with ⟨category, st3⟩
  have heff := getOrCreateAssetCategory_effects device.nodeClass st
  rw [hg] at heff
  obtain ⟨⟨ext, hext, hcat⟩, hsm, -, -, -, -, -, -, -⟩ := heff
  simp only [hg]
  rcases hput : putModel m0.id
      { name := device.system.model, manufacturer_id := mfr.id,
        category_id := category.id, model_number := device.system.model } st3
    with ⟨st4, res⟩
  have hsucc := putModel_success m0.id
      { name := device.system.model, manufacturer_id := mfr.id,
        category_id := category.id, model_number := device.system.model } st3
      (by rw [hsm]; exact hs)
  rw [hput] at hsucc
  have hres : res = .ok (applyModelUpdate st3.server m0.id
      { name := device.system.model, manufacturer_id := mfr.id,
        category_id := category.id, model_number := device.system.model }) := hsucc.1
  subst hres
  simp only [hput]
  have hc4 : st4.calls = st3.calls ++
      [{ method := .put, resource := .models, objId := some m0.id }] := by
    have h := putModel_calls m0.id
        { name := device.system.model, manufacturer_id := mfr.id,
          category_id := category.id, model_number := device.system.model } st3
    rw [hput] at h
    exact h
  obtain ⟨hA1, -, -, -, -, exth, hexth, hhw⟩ :=
    syncAssetStep_effects device now
      (applyModelUpdate st3.server m0.id
        { name := device.system.model, manufacturer_id := mfr.id,
          category_id := category.id, model_number := device.system.model }) mfr
      { st4 with
        modelsByName := mset (strToLower device.system.model)
          (applyModelUpdate st3.server m0.id
            { name := device.system.model, manufacturer_id := mfr.id,
              category_id := category.id, model_number := device.system.model })
          st4.modelsByName }
  constructor
  · rw [hexth]
    have hz1 : putModelCalls ext = 0 :=
      putModelCalls_zero fun c hc' => by rw [hcat c hc']; simp
    have hz2 : putModelCalls exth = 0 :=
      putModelCalls_zero fun c hc' => by rw [hhw c hc']; simp
    have hcalls5 : ({ st4 with
        modelsByName := mset (strToLower device.system.model)
          (applyModelUpdate st3.server m0.id
            { name := device.system.model, manufacturer_id := mfr.id,
              category_id := category.id, model_number := device.system.model })
          st4.modelsByName } : St).calls = st4.calls := rfl
    rw [hcalls5, hc4, hext, putModelCalls_append, putModelCalls_append,
      putModelCalls_append]
    have hone : putModelCalls
        [{ method := .put, resource := .models, objId := some m0.id }] = 1 := by
      simp [putModelCalls]
    omega
  · refine ⟨applyModelUpdate st3.server m0.id
      { name := device.system.model, manufacturer_id := mfr.id,
        category_id := category.id, model_number := device.system.model },
      ?_, rfl, rfl⟩
    rw [hA1]
    exact mget_mset_self _ _ _

/-- Witness for C7: the device resolves `dellMfr` while the cached
`driftModel` is bound to `hpMfr`; one PUT is issued and the re-cached model
carries `dellMfr`'s id. -/
theorem C7_cached_model_drift_update_witness :
    putModelCalls (syncDeviceWithCache hostDevice 0 driftSt).1.calls =
      putModelCalls driftSt.calls + 1
    ∧ ∃ updated : ModelRec,
        mget (strToLower hostDevice.system.model)
            (syncDeviceWithCache hostDevice 0 driftSt).1.modelsByName = some updated
        ∧ updated.manufacturer.id = dellMfr.id
        ∧ updated.id = driftModel.id :=
  C7_cached_model_drift_update hostDevice 0 driftSt dellMfr driftModel
    (by decide) (by decide) (by decide) (by decide) (by decide)

/-- **C10** — model identity is global by lowercase name: with a cold model
cache, the search path matches an existing server model solely by
case-insensitive name; when that model's manufacturer differs from the
device's, the single record is re-bound via one `PUT models/:id` (no
`POST models` is issued and the server's model count is unchanged), the
cache ends up holding the updated record under the lowercased name, and the
cache never holds two entries under the same lowercased key. -/
theorem C10_model_identity_by_name (device : DeviceDetails) (now : Nat) (st : St)
    (mfr : Manufacturer) (m : ModelRec)
    (hnd : (st.modelsByName.map Prod.fst).Nodup)
    (hm : mget (strToLower device.system.manufacturer) st.manufacturersByName = some mfr)
    (hc : mget (strToLower device.system.model) st.modelsByName = none)
    (hfind : (st.server.models.find? fun mm =>
        strToLower mm.name == strToLower device.system.model) = some m)
    (hd : m.manufacturer.id ≠ mfr.id) :
    putModelCalls (syncDeviceWithCache device now st).1.calls =
      putModelCalls st.calls + 1
    ∧ postModelCalls (syncDeviceWithCache device now st).1.calls =
        postModelCalls st.calls
    ∧ (syncDeviceWithCache device now st).1.server.models.length =
        st.server.models.length
    ∧ (∃ updated : ModelRec,
        mget (strToLower device.system.model)
            (syncDeviceWithCache device now st).1.modelsByName = some updated
        ∧ updated.id = m.id ∧ updated.manufacturer.id = mfr.id)
    ∧ (((syncDeviceWithCache device now st).1.modelsByName.map Prod.fst).Nodup) := by
  have hbd : (m.manufacturer.id != mfr.id) = true := by simpa using hd
  have hmem : m ∈ st.server.models := List.mem_of_find?_eq_some hfind
  unfold syncDeviceWithCache syncModelPhase
  simp only [hm, hc, searchModels, emit, hfind, hbd, Bool.true_or, if_true]
  generalize hst3 : ({ st with
      modelsByName := mset (strToLower device.system.model) m st.modelsByName
      calls := st.calls ++
        [{ method := Method.get, resource := Resource.models, objId := none,
           tag := none }] } : St) = st3
  have hst3models : st3.modelsByName =
      mset (strToLower device.system.model) m st.modelsByName := by
    rw [← hst3]
  have hst3server : st3.server.models = st.server.models := by
    rw [← hst3]
  have hst3calls : st3.calls = st.calls ++
      [{ method := Method.get, resource := Resource.models, objId := none,
         tag := none }] := by
    rw [← hst3]
  rcases hg : getOrCreateAssetCategory device.nodeClass st3 with ⟨category, st4⟩
  have heff := getOrCreateAssetCategory_effects device.nodeClass st3
  rw [hg] at heff
  obtain ⟨⟨ext, hext, hcat⟩, hsm, -, -, -, hmbn4, -, -, -⟩ := heff
  simp only [hg]
  have hany : (st4.server.models.any fun mm => mm.id == m.id) = true := by
    rw [hsm, hst3server]
    exact List.any_eq_true.mpr ⟨m, hmem, by simp⟩
  rcases hput : putModel m.id
      { name := device.system.model, manufacturer_id := mfr.id,
        category_id := category.id, model_number := device.system.model } st4
    with ⟨st5, res⟩
  have hsucc := putModel_success m.id
      { name := device.system.model, manufacturer_id := mfr.id,
        category_id := category.id, model_number := device.system.model } st4 hany
  rw [hput] at hsucc
  have hres : res = .ok (applyModelUpdate st4.server m.id
      { name := device.system.model, manufacturer_id := mfr.id,
        category_id := category.id, model_number := device.system.model }) := hsucc.1
  subst hres
  obtain ⟨-, hm5, -, -, hsm5, -⟩ := hsucc
  simp only [hput]
  have hc5 : st5.calls = st4.calls ++
      [{ method := .put, resource := .models, objId := some m.id }] := by
    have h := putModel_calls m.id
        { name := device.system.model, manufacturer_id := mfr.id,
          category_id := category.id, model_number := device.system.model } st4
    rw [hput] at h
    exact h
  obtain ⟨hA1, -, -, hA4, -, exth, hexth, hhw⟩ :=
    syncAssetStep_effects device now
      (applyModelUpdate st4.server m.id
        { name := device.system.model, manufacturer_id := mfr.id,
          category_id := category.id, model_number := device.system.model }) mfr
      { st5 with
        modelsByName := mset (strToLower device.system.model)
          (applyModelUpdate st4.server m.id
            { name := device.system.model, manufacturer_id := mfr.id,
              category_id := category.id, model_number := device.system.model })
          st5.modelsByName }
  have hcalls6 : ({ st5 with
      modelsByName := mset (strToLower device.system.model)
        (applyModelUpdate st4.server m.id
          { name := device.system.model, manufacturer_id := mfr.id,
            category_id := category.id, model_number := device.system.model })
        st5.modelsByName } : St).calls = st5.calls := rfl
  have hz1 : putModelCalls ext = 0 :=
    putModelCalls_zero fun c hc' => by rw [hcat c hc']; simp
  have hz2 : putModelCalls exth = 0 :=
    putModelCalls_zero fun c hc' => by rw [hhw c hc']; simp
  refine ⟨?_, ?_, ?_, ?_, ?_⟩
  · rw [hexth, hcalls6, hc5, hext, hst3calls, putModelCalls_append,
      putModelCalls_append, putModelCalls_append, putModelCalls_append]
    have hone : putModelCalls
        [{ method := .put, resource := .models, objId := some m.id }] = 1 := by
      simp [putModelCalls]
    have hget : putModelCalls
        [{ method := Method.get, resource := Resource.models, objId := none,
           tag := none }] = 0 := by
      simp [putModelCalls]
    omega
  · rw [hexth, hcalls6, hc5, hext, hst3calls, postModelCalls_append,
      postModelCalls_append, postModelCalls_append, postModelCalls_append]
    have hp1 : postModelCalls ext = 0 :=
      postModelCalls_zero fun c hc' => by rw [hcat c hc']; simp
    have hp2 : postModelCalls exth = 0 :=
      postModelCalls_zero fun c hc' => by rw [hhw c hc']; simp
    have hput0 : postModelCalls
        [{ method := .put, resource := .models, objId := some m.id }] = 0 := by
      simp [postModelCalls]
    have hget : postModelCalls
        [{ method := Method.get, resource := Resource.models, objId := none,
           tag := none }] = 0 := by
      simp [postModelCalls]
    omega
  · rw [hA4]
    have : ({ st5 with
        modelsByName := mset (strToLower device.system.model)
          (applyModelUpdate st4.server m.id
            { name := device.system.model, manufacturer_id := mfr.id,
              category_id := category.id, model_number := device.system.model })
          st5.modelsByName } : St).server.models = st5.server.models := rfl
    rw [this, hsm5, List.length_map, hsm, hst3server]
  · refine ⟨applyModelUpdate st4.server m.id
      { name := device.system.model, manufacturer_id := mfr.id,
        category_id := category.id, model_number := device.system.model },
      ?_, rfl, rfl⟩
    rw [hA1]
    exact mget_mset_self _ _ _
  · rw [hA1]
    have : ({ st5 with
        modelsByName := mset (strToLower device.system.model)
          (applyModelUpdate st4.server m.id
            { name := device.system.model, manufacturer_id := mfr.id,
              category_id := category.id, model_number := device.system.model })
          st5.modelsByName } : St).modelsByName =
        mset (strToLower device.system.model)
          (applyModelUpdate st4.server m.id
            { name := device.system.model, manufacturer_id := mfr.id,
              category_id := category.id, model_number := device.system.model })
          st5.modelsByName := rfl
    rw [this, hm5, hmbn4, hst3models]
    exact mset_keys_nodup _ _ _ (mset_keys_nodup _ _ _ hnd)

/-- Witness for C10: cold model cache, server model `driftModel` owned by
`hpMfr`, device resolving `dellMfr`: one PUT, no POST, model count
unchanged, cache re-bound, keys distinct. -/
theorem C10_model_identity_by_name_witness :
    putModelCalls (syncDeviceWithCache hostDevice 0 searchSt).1.calls =
      putModelCalls searchSt.calls + 1
    ∧ postModelCalls (syncDeviceWithCache hostDevice 0 searchSt).1.calls =
        postModelCalls searchSt.calls
    ∧ (syncDeviceWithCache hostDevice 0 searchSt).1.server.models.length =
        searchSt.server.models.length
    ∧ (∃ updated : ModelRec,
        mget (strToLower hostDevice.system.model)
            (syncDeviceWithCache hostDevice 0 searchSt).1.modelsByName = some updated
        ∧ updated.id = driftModel.id ∧ updated.manufacturer.id = dellMfr.id)
    ∧ (((syncDeviceWithCache hostDevice 0 searchSt).1.modelsByName.map Prod.fst).Nodup) :=
  C10_model_identity_by_name hostDevice 0 searchSt dellMfr driftModel
    (by decide) (by decide) (by decide) (by decide) (by decide)

/-! ### Manufacturer-write safety (for C8) -/

theorem mfrSafe_of_method {c : ApiCall} (h : c.method = .get ∨ c.method = .post) :
    MfrSafe c := fun _ => h

theorem mfrSafe_of_not_mfr {c : ApiCall} (h : c.resource ≠ .manufacturers) :
    MfrSafe c := fun hr => absurd hr h

theorem newCalls_mfrSafe_of_categories {st st' : St}
    (h : NewCalls st st' fun c => c.resource = .categories) :
    NewCalls st st' MfrSafe :=
  NewCalls.mono' (fun c hc => mfrSafe_of_not_mfr (by rw [hc]; intro h'; cases h')) h

theorem syncAssetStep_newCalls (device : DeviceDetails) (now : Nat) (model : ModelRec)
    (manufacturer : Manufacturer) (st : St) :
    NewCalls st (syncAssetStep device now model manufacturer st).1 MfrSafe := by
  obtain ⟨-, -, -, -, -, ext, hext, hhw⟩ :=
    syncAssetStep_effects device now model manufacturer st
  exact ⟨ext, hext,
    fun c hc => mfrSafe_of_not_mfr (by rw [hhw c hc]; intro h'; cases h')⟩

theorem putModel_newCalls (mid : Nat) (u : ModelUpdate) (st : St) :
    NewCalls st (putModel mid u st).1 MfrSafe := by
  refine ⟨[{ method := .put, resource := .models, objId := some mid }],
    putModel_calls mid u st, ?_⟩
  intro c hc
  rcases List.mem_cons.mp hc with h | h
  · rw [h]
    exact mfrSafe_of_not_mfr (by intro h'; cases h')
  · exact absurd h (List.not_mem_nil c)

theorem getModelById_newCalls (mid : Nat) (st : St) :
    NewCalls st (getModelById mid st).1 MfrSafe := by
  refine ⟨[{ method := .get, resource := .models, objId := some mid }],
    by rw [getModelById_state]; rfl, ?_⟩
  intro c hc
  rcases List.mem_cons.mp hc with h | h
  · rw [h]
    exact mfrSafe_of_method (Or.inl rfl)
  · exact absurd h (List.not_mem_nil c)

theorem createModel_newCalls (mn : String) (mid : Nat) (nc : String) (st : St) :
    NewCalls st (createModel mn mid nc st).1 MfrSafe := by
  unfold createModel
  split
  · exact NewCalls.refl' st _
  · rcases hg : getOrCreateAssetCategory nc st with ⟨category, st2⟩
    have heff := getOrCreateAssetCategory_effects nc st
    rw [hg] at heff
    have hN1 : NewCalls st st2 MfrSafe := newCalls_mfrSafe_of_categories heff.1
    simp only [hg]
    split
    · exact hN1
    · refine NewCalls.trans' hN1
        ⟨[{ method := .post, resource := .models, tag := some mn }], by simp [emit], ?_⟩
      intro c hc
      rcases List.mem_cons.mp hc with h | h
      · rw [h]
        exact mfrSafe_of_method (Or.inr rfl)
      · exact absurd h (List.not_mem_nil c)

theorem syncModelPhase_newCalls (device : DeviceDetails) (now : Nat)
    (mfr : Manufacturer) (st1 : St) :
    NewCalls st1 (syncModelPhase device now mfr st1).1 MfrSafe := by
  unfold syncModelPhase
  rcases hcm : mget (strToLower device.system.model) st1.modelsByName with _ | m0
  · -- cache miss: search Snipe-IT by name
    simp only [hcm, searchModels, emit]
    have hN2 : NewCalls st1 ({ st1 with calls := st1.calls ++
        [{ method := Method.get, resource := Resource.models, objId := none,
           tag := none }] } : St) MfrSafe := by
      refine ⟨[{ method := Method.get, resource := Resource.models,
                 objId := none, tag := none }], rfl, ?_⟩
      intro c hc
      rcases List.mem_cons.mp hc with h | h
      · rw [h]
        exact mfrSafe_of_method (Or.inl rfl)
      · exact absurd h (List.not_mem_nil c)
    rcases hf : st1.server.models.find? (fun mm =>
        strToLower mm.name == strToLower device.system.model) with _ | mEx
    · simp only [hf]
      rcases hcr : createModel device.system.model mfr.id device.nodeClass
          ({ st1 with calls := st1.calls ++
            [{ method := Method.get, resource := Resource.models, objId := none,
               tag := none }] } : St) with ⟨st3, res⟩
      have hN3 : NewCalls st1 st3 MfrSafe := by
        have h := createModel_newCalls device.system.model mfr.id device.nodeClass
          ({ st1 with calls := st1.calls ++
            [{ method := Method.get, resource := Resource.models, objId := none,
               tag := none }] } : St)
        rw [hcr] at h
        exact NewCalls.trans' hN2 h
      cases res with
      | ok model =>
          simp only [hcr]
          exact NewCalls.trans' hN3
            (syncAssetStep_newCalls device now model mfr _)
      | error e =>
          simp only [hcr]
          exact hN3
    · simp only [hf]
      split
      · rcases hg : getOrCreateAssetCategory device.nodeClass
            ({ st1 with
              modelsByName := mset (strToLower device.system.model) mEx st1.modelsByName
              calls := st1.calls ++
                [{ method := Method.get, resource := Resource.models, objId := none,
                   tag := none }] } : St) with ⟨category, st4⟩
        have hN4 : NewCalls st1 st4 MfrSafe := by
          have heff := getOrCreateAssetCategory_effects device.nodeClass
            ({ st1 with
              modelsByName := mset (strToLower device.system.model) mEx st1.modelsByName
              calls := st1.calls ++
                [{ method := Method.get, resource := Resource.models, objId := none,
                   tag := none }] } : St)
          rw [hg] at heff
          refine NewCalls.trans' ?_ (newCalls_mfrSafe_of_categories heff.1)
          rcases hN2 with ⟨e2, he2, hp2⟩
          exact ⟨e2, he2, hp2⟩
        simp only [hg]
        rcases hput : putModel mEx.id
            { name := device.system.model, manufacturer_id := mfr.id,
              category_id := category.id, model_number := device.system.model } st4
          with ⟨st5, res⟩
        have hN5 : NewCalls st1 st5 MfrSafe := by
          have h := putModel_newCalls mEx.id
            { name := device.system.model, manufacturer_id := mfr.id,
              category_id := category.id, model_number := device.system.model } st4
          rw [hput] at h
          exact NewCalls.trans' hN4 h
        cases res with
        | ok updated =>
            simp only [hput]
            exact NewCalls.trans' hN5
              (syncAssetStep_newCalls device now updated mfr _)
        | error e =>
            simp only [hput]
            exact hN5
      · refine NewCalls.trans' ?_ (syncAssetStep_newCalls device now mEx mfr _)
        rcases hN2 with ⟨e2, he2, hp2⟩
        exact ⟨e2, he2, hp2⟩
  · -- cache hit
    simp only [hcm]
    split
    · -- the defensive-fetch step errored: the device sync stops there
      rename_i st2 e heq
      split at heq
      · rcases hgid : getModelById m0.id st1 with ⟨st', r⟩
        have hNf := getModelById_newCalls m0.id st1
        rw [hgid] at hNf heq
        cases r with
        | ok mm =>
            simp only [Prod.mk.injEq] at heq
            exact absurd heq.2 (by simp)
        | error e2 =>
            simp only [Prod.mk.injEq] at heq
            obtain ⟨h1, -⟩ := heq
            rw [← h1]
            exact hNf
      · simp only [Prod.mk.injEq] at heq
        exact absurd heq.2 (by simp)
    · -- a model (cached, or freshly re-fetched) is in hand
      rename_i st2 model heq
      have hN2 : NewCalls st1 st2 MfrSafe := by
        split at heq
        · rcases hgid : getModelById m0.id st1 with ⟨st', r⟩
          have hNf := getModelById_newCalls m0.id st1
          rw [hgid] at hNf heq
          cases r with
          | ok mm =>
              simp only [Prod.mk.injEq] at heq
              obtain ⟨h1, -⟩ := heq
              rw [← h1]
              rcases hNf with ⟨e2, he2, hp2⟩
              exact ⟨e2, he2, hp2⟩
          | error e2 =>
              simp only [Prod.mk.injEq] at heq
              exact absurd heq.2 (by simp)
        · simp only [Prod.mk.injEq] at heq
          obtain ⟨h1, -⟩ := heq
          rw [← h1]
          exact NewCalls.refl' st1 _
      split
      · rcases hg : getOrCreateAssetCategory device.nodeClass st2 with ⟨category, st3⟩
        have heff := getOrCreateAssetCategory_effects device.nodeClass st2
        rw [hg] at heff
        have hN3 : NewCalls st1 st3 MfrSafe :=
          NewCalls.trans' hN2 (newCalls_mfrSafe_of_categories heff.1)
        simp only [hg]
        rcases hput : putModel model.id
            { name := device.system.model, manufacturer_id := mfr.id,
              category_id := category.id, model_number := device.system.model } st3
          with ⟨st4, res2⟩
        have hN4 : NewCalls st1 st4 MfrSafe := by
          have h := putModel_newCalls model.id
            { name := device.system.model, manufacturer_id := mfr.id,
              category_id := category.id, model_number := device.system.model } st3
          rw [hput] at h
          exact NewCalls.trans' hN3 h
        cases res2 with
        | ok updated =>
            simp only [hput]
            exact NewCalls.trans' hN4
              (syncAssetStep_newCalls device now updated mfr _)
        | error e2 =>
            simp only [hput]
            exact hN4
      · exact NewCalls.trans' hN2 (syncAssetStep_newCalls device now model mfr st2)

theorem syncDeviceWithCache_newCalls (device : DeviceDetails) (now : Nat) (st : St) :
    NewCalls st (syncDeviceWithCache device now st).1 MfrSafe := by
  unfold syncDeviceWithCache
  rcases hmm : mget (strToLower device.system.manufacturer) st.manufacturersByName
    with _ | mfr
  · rcases hcmf : createManufacturer device.system.manufacturer st with ⟨mfr, stM⟩
    simp only [hmm, hcmf]
    have hcalls : stM.calls = st.calls ++
        [{ method := .post, resource := .manufacturers,
           tag := some device.system.manufacturer }] := by
      have h := (createManufacturer_effects device.system.manufacturer st).2.1
      rw [hcmf] at h
      exact h
    have hN1 : NewCalls st
        ({ stM with manufacturersByName := mset (strToLower device.system.manufacturer) mfr stM.manufacturersByName } : St)
        MfrSafe := by
      refine ⟨[{ method := .post, resource := .manufacturers,
                 tag := some device.system.manufacturer }], hcalls, ?_⟩
      intro c hc
      rcases List.mem_cons.mp hc with h | h
      · rw [h]
        exact mfrSafe_of_method (Or.inr rfl)
      · exact absurd h (List.not_mem_nil c)
    exact NewCalls.trans' hN1 (syncModelPhase_newCalls device now mfr _)
  · simp only [hmm]
    exact syncModelPhase_newCalls device now mfr st


theorem syncLoop_newCalls (now : Nat) :
    ∀ (devices : List DeviceDetails) (st : St),
      NewCalls st (syncLoop devices now st).1 MfrSafe := by
  intro devices
  induction devices with
  | nil => intro st; exact NewCalls.refl' st _
  | cons d rest ih =>
      intro st
      rcases hsd : syncDeviceWithCache d now st with ⟨st', r⟩
      have h1 : NewCalls st st' MfrSafe := by
        have h := syncDeviceWithCache_newCalls d now st
        rw [hsd] at h
        exact h
      rcases hrest : syncLoop rest now st' with ⟨stFin, okc, errc⟩
      have h2 : NewCalls st' stFin MfrSafe := by
        have h := ih st'
        rw [hrest] at h
        exact h
      have hfin : (syncLoop (d :: rest) now st).1 = stFin := by
        cases r <;> simp [syncLoop, hsd, hrest]
      rw [hfin]
      exact NewCalls.trans' h1 h2

theorem preloadCaches_newCalls (st : St) : NewCalls st (preloadCaches st) MfrSafe := by
  refine ⟨[{ method := .get, resource := .categories },
      { method := .get, resource := .manufacturers },
      { method := .get, resource := .models },
      { method := .get, resource := .hardware }],
    by simp [preloadCaches, getCategories, getManufacturers, getModels, emit], ?_⟩
  intro c hc
  fin_cases hc <;> exact mfrSafe_of_method (Or.inl rfl)

/-- **C8** — manufacturer records are never mutated: across the entire run
performed by the scheduled entry point, every call addressed to the
manufacturers endpoint is a GET (bulk listing) or a POST (creation); no PUT
or PATCH is ever issued against a manufacturer. -/
theorem C8_manufacturers_never_mutated (rawDevices : List RawDevice) (now : Nat)
    (server : Server) :
    ∀ c ∈ (getDevicesHandler rawDevices now server).2.calls,
      c.resource = .manufacturers → c.method = .get ∨ c.method = .post := by
  intro c hcmem
  have hpre := preloadCaches_newCalls (initialSt server)
  have hloop := syncLoop_newCalls now (processDevices rawDevices)
      (preloadCaches (initialSt server))
  rcases hloopEq : syncLoop (processDevices rawDevices) now
      (preloadCaches (initialSt server)) with ⟨stFin, okc, errc⟩
  rw [hloopEq] at hloop
  have hall : NewCalls (initialSt server) stFin MfrSafe :=
    NewCalls.trans' hpre hloop
  rcases hall with ⟨ext, hext, hp⟩
  have hcalls : (getDevicesHandler rawDevices now server).2.calls = ext := by
    show (syncDevices (processDevices rawDevices) now (initialSt server)).calls = ext
    unfold syncDevices
    rw [hloopEq]
    simpa using hext
  rw [hcalls] at hcmem
  exact hp c hcmem

/-- Witness for C8: a run over one device whose manufacturer is unknown to
the server issues a `POST manufacturers` — the theorem confirms that call
(and every other manufacturers call of the run) is a GET or a POST. -/
theorem C8_manufacturers_never_mutated_witness :
    ({ method := Method.post, resource := Resource.manufacturers, objId := none, tag := some "Acme" } : ApiCall).method = Method.get
    ∨ ({ method := Method.post, resource := Resource.manufacturers, objId := none, tag := some "Acme" } : ApiCall).method = Method.post :=
  C8_manufacturers_never_mutated [failingRawDevice] 0 emptyServer
    { method := Method.post, resource := Resource.manufacturers, objId := none, tag := some "Acme" }
    (by decide) (by decide)

/-- **C4** — For every request sent through the rate-limited gate: if the
first attempt fails with a 429, the gate waits 2× the minimum interval
(2000 ms) as its final suspension and retries exactly once (two invocations
of the request function in total); the outcome of that single retry —
including a second 429, which surfaces as the throttling error — is returned
as is, with no third attempt. -/
theorem C4_throttle_single_retry (lastRequestTime now completionTime : Nat)
    (req : Nat → ReqOutcome) (h0 : req 0 = .throttle) :
    (rateLimitedRequest requestDelay lastRequestTime now completionTime req).attempts = 2
    ∧ (rateLimitedRequest requestDelay lastRequestTime now completionTime
        req).waits.getLast? = some (2 * requestDelay)
    ∧ 2 * requestDelay = 2000
    ∧ (rateLimitedRequest requestDelay lastRequestTime now completionTime req).result =
        (match req 1 with
         | .ok v => .ok v
         | .throttle => .error .throttle
         | .fail => .error .fail) := by
  unfold rateLimitedRequest
  rw [h0]
  cases h1 : req 1 <;>
    simp [requestDelay, List.getLast?_concat]

/-- Witness for C4 at a request that returns 429 on both attempts. -/
theorem C4_throttle_single_retry_witness :
    (rateLimitedRequest requestDelay 0 0 0 (fun _ => ReqOutcome.throttle)).attempts = 2
    ∧ (rateLimitedRequest requestDelay 0 0 0
        (fun _ => ReqOutcome.throttle)).waits.getLast? = some (2 * requestDelay)
    ∧ 2 * requestDelay = 2000
    ∧ (rateLimitedRequest requestDelay 0 0 0 (fun _ => ReqOutcome.throttle)).result =
        .error .throttle :=
  C4_throttle_single_retry 0 0 0 (fun _ => ReqOutcome.throttle) rfl

/-- **C5** (amended) — The gate's `lastRequestTime` is updated (to the
completion time) exactly when the *first* attempt succeeds; it is left
unchanged at the start of a wait, on any failure, and also after a
successful retry following a throttling wait (the retry path returns
without re-stamping it). -/
theorem C5_lastRequestTime_first_attempt_only
    (delay lastRequestTime now completionTime : Nat) (req : Nat → ReqOutcome) :
    (rateLimitedRequest delay lastRequestTime now completionTime req).lastRequestTime =
      (match req 0 with
       | .ok _ => completionTime
       | .throttle => lastRequestTime
       | .fail => lastRequestTime) := by
  unfold rateLimitedRequest
  cases h0 : req 0
  · simp
  · cases h1 : req 1 <;> simp
  · simp

/-- **C5** counterexample — a run whose first attempt is throttled and whose
retry succeeds: the overall request completes successfully, yet
`lastRequestTime` still holds its initial value (5), i.e. it was *not*
updated on the successful retry, contradicting "updated after every request
that completes successfully". -/
theorem C5_counterexample :
    (rateLimitedRequest requestDelay 5 6 100
        (fun n => if n == 0 then ReqOutcome.throttle else ReqOutcome.ok 7)).result =
      .ok 7
    ∧ (rateLimitedRequest requestDelay 5 6 100
        (fun n => if n == 0 then ReqOutcome.throttle else ReqOutcome.ok 7)).lastRequestTime
      = 5 :=
  ⟨rfl, rfl⟩

/-- **C9** (amended) — for every raw record with no system sub-object and
nodeClass other than VMware host, the synthesized system block has zero
processors, zero memory, `virtualMachine = false`, every other string field
`"Unknown"`, and a name equal to the record's own display name *when that
name is non-empty* (a JS-falsy display name falls back to `"Unknown"` via
`device.systemName || 'Unknown'`). -/
theorem C9_default_system_block (d : RawDevice) (hsys : d.system = none)
    (hnc : d.nodeClass ≠ "VMWARE_VM_HOST") :
    (createDeviceDetails d).system.numberOfProcessors = 0
    ∧ (createDeviceDetails d).system.totalPhysicalMemory = 0
    ∧ (createDeviceDetails d).system.virtualMachine = false
    ∧ (createDeviceDetails d).system.name = jsOr d.systemName "Unknown"
    ∧ (d.systemName ≠ "" → (createDeviceDetails d).system.name = d.systemName)
    ∧ (createDeviceDetails d).system.manufacturer = "Unknown"
    ∧ (createDeviceDetails d).system.model = "Unknown"
    ∧ (createDeviceDetails d).system.biosSerialNumber = "Unknown"
    ∧ (createDeviceDetails d).system.serialNumber = "Unknown"
    ∧ (createDeviceDetails d).system.domain = "Unknown"
    ∧ (createDeviceDetails d).system.domainRole = "Unknown"
    ∧ (createDeviceDetails d).system.chassisType = "Unknown" := by
  have hbr : createDeviceDetails d = createDefaultDeviceDetails d := by
    simp [createDeviceDetails, hsys, hnc]
  rw [hbr]
  refine ⟨rfl, rfl, rfl, rfl, ?_, rfl, rfl, rfl, rfl, rfl, rfl, rfl⟩
  intro hne
  simp [createDefaultDeviceDetails, jsOr, hne]

/-- Witness for C9 at a record with display name `"PC9"`. -/
theorem C9_default_system_block_witness :
    (createDeviceDetails
        { id := 9
          systemName := "PC9"
          nodeClass := "WINDOWS_SERVER"
          system := none }).system.numberOfProcessors = 0
    ∧ (createDeviceDetails
        { id := 9
          systemName := "PC9"
          nodeClass := "WINDOWS_SERVER"
          system := none }).system.totalPhysicalMemory = 0
    ∧ (createDeviceDetails
        { id := 9
          systemName := "PC9"
          nodeClass := "WINDOWS_SERVER"
          system := none }).system.virtualMachine = false
    ∧ (createDeviceDetails
        { id := 9
          systemName := "PC9"
          nodeClass := "WINDOWS_SERVER"
          system := none }).system.name = jsOr "PC9" "Unknown"
    ∧ ("PC9" ≠ "" → (createDeviceDetails
        { id := 9
          systemName := "PC9"
          nodeClass := "WINDOWS_SERVER"
          system := none }).system.name = "PC9")
    ∧ (createDeviceDetails
        { id := 9
          systemName := "PC9"
          nodeClass := "WINDOWS_SERVER"
          system := none }).system.manufacturer = "Unknown"
    ∧ (createDeviceDetails
        { id := 9
          systemName := "PC9"
          nodeClass := "WINDOWS_SERVER"
          system := none }).system.model = "Unknown"
    ∧ (createDeviceDetails
        { id := 9
          systemName := "PC9"
          nodeClass := "WINDOWS_SERVER"
          system := none }).system.biosSerialNumber = "Unknown"
    ∧ (createDeviceDetails
        { id := 9
          systemName := "PC9"
          nodeClass := "WINDOWS_SERVER"
          system := none }).system.serialNumber = "Unknown"
    ∧ (createDeviceDetails
        { id := 9
          systemName := "PC9"
          nodeClass := "WINDOWS_SERVER"
          system := none }).system.domain = "Unknown"
    ∧ (createDeviceDetails
        { id := 9
          systemName := "PC9"
          nodeClass := "WINDOWS_SERVER"
          system := none }).system.domainRole = "Unknown"
    ∧ (createDeviceDetails
        { id := 9
          systemName := "PC9"
          nodeClass := "WINDOWS_SERVER"
          system := none }).system.chassisType = "Unknown" :=
  C9_default_system_block
    { id := 9, systemName := "PC9", nodeClass := "WINDOWS_SERVER", system := none }
    rfl (by decide)

/-- **C9** counterexample — a record with an *empty* display name and no
system block: the synthesized name is `"Unknown"`, not the record's own
display name, so "name equal to the record's own display name" fails as a
universal statement. -/
theorem C9_counterexample :
    (createDeviceDetails
        { id := 1
          systemName := ""
          nodeClass := "WINDOWS_SERVER"
          system := none }).system.name
      ≠ ({ id := 1
           systemName := ""
           nodeClass := "WINDOWS_SERVER"
           system := none } : RawDevice).systemName := by
  decide

/-- **C1** (amended) — the count returned by the scheduled entry point is the
number of devices *attempted* (the filtered device list length): every
processed device is counted exactly once, whether its per-device sync
succeeded or raised an error, so the summary equals successes plus
failures — not the number of successes. -/
theorem C1_summary_counts_attempts (rawDevices : List RawDevice) (now : Nat)
    (server : Server) :
    (getDevicesHandler rawDevices now server).1 =
      runSucceededCount rawDevices now server + runFailedCount rawDevices now server := by
  have h : ∀ (ds : List DeviceDetails) (st : St),
      (syncLoop ds now st).2.1 + (syncLoop ds now st).2.2 = ds.length := by
    intro ds
    induction ds with
    | nil => intro st; simp [syncLoop]
    | cons d rest ih =>
        intro st
        rcases hsd : syncDeviceWithCache d now st with ⟨st', r⟩
        rcases hrest : syncLoop rest now st' with ⟨stFin, okc, errc⟩
        have hih := ih st'
        rw [hrest] at hih
        simp only [] at hih
        cases r <;> simp [syncLoop, hsd, hrest] <;> omega
  simpa [getDevicesHandler, runSucceededCount, runFailedCount, syncDevices] using
    (h (processDevices rawDevices) (preloadCaches (initialSt server))).symm

/-- **C2** (amended) — a device is matched against the assets-by-serial map
purely by its lowercased serial as a map key: when the key is absent the
Create path is taken (one `POST hardware`), and the map is not updated
afterwards, so distinct devices with the same unmatched serial each take the
Create path within a run.  (The original claim fails when an existing asset
*does* carry the empty serial key — see the counterexample.) -/
theorem C2_create_iff_serial_unmatched (device : DeviceDetails) (now : Nat)
    (model : ModelRec) (manufacturer : Manufacturer) (st : St)
    (h : mget (strToLower device.system.serialNumber) st.assetsBySerial = none) :
    (syncAssetStep device now model manufacturer st).1.calls =
      st.calls ++
        [{ method := .post, resource := .hardware, tag := some device.systemName }]
    ∧ (syncAssetStep device now model manufacturer st).1.assetsBySerial =
        st.assetsBySerial := by
  simp [syncAssetStep, h, createAssetData, emit]

/-- Witness for C2 at the empty-serial device against a state whose
assets-by-serial map has no empty key. -/
theorem C2_create_iff_serial_unmatched_witness :
    (syncAssetStep hostDevice 0 optiModel dellMfr
        { emptySerialSt with assetsBySerial := [] }).1.calls =
      ({ emptySerialSt with assetsBySerial := [] } : St).calls ++
        [{ method := .post, resource := .hardware, tag := some hostDevice.systemName }]
    ∧ (syncAssetStep hostDevice 0 optiModel dellMfr
        { emptySerialSt with assetsBySerial := [] }).1.assetsBySerial =
        ({ emptySerialSt with assetsBySerial := [] } : St).assetsBySerial :=
  C2_create_iff_serial_unmatched hostDevice 0 optiModel dellMfr
    { emptySerialSt with assetsBySerial := [] } (by decide)

/-- **C2** counterexample — a device whose system serial number is the empty
string, against a run state whose assets-by-serial map holds an existing
asset under the empty key: the full per-device sync *matches* that asset and
issues a `PATCH hardware/77` (the Create path is not taken), so the
empty-serial device is coalesced onto the existing empty-serial asset. -/
theorem C2_counterexample :
    mget (strToLower hostDevice.system.serialNumber) emptySerialSt.assetsBySerial =
      some emptySerialAsset
    ∧ (syncDeviceWithCache hostDevice 0 emptySerialSt).1.calls =
        [{ method := .patch, resource := .hardware, objId := some 77 }] := by
  constructor
  · decide
  · decide

/-- **C3** — for a device matched by serial, the patch object contains the
four structural fields each exactly when it differs from the existing
asset, always carries the custom fields (processor count, memory in GiB)
and the notes stamp, hence is never empty; consequently the matched branch
always issues one `PATCH hardware/:id` (the "no changes needed" branch is
unreachable). -/
theorem C3_patch_fields_and_always_write (device : DeviceDetails) (a : Asset)
    (model : ModelRec) (manufacturer : Manufacturer) (now : Nat) (st : St)
    (h : mget (strToLower device.system.serialNumber) st.assetsBySerial = some a) :
    ((getChangedFields device a model manufacturer now).name.isSome
        ↔ device.systemName ≠ a.name)
    ∧ ((getChangedFields device a model manufacturer now).model_id.isSome
        ↔ model.id ≠ a.modelId)
    ∧ ((getChangedFields device a model manufacturer now).manufacturer_id.isSome
        ↔ manufacturer.id ≠ a.manufacturerId)
    ∧ ((getChangedFields device a model manufacturer now).model_number.isSome
        ↔ device.system.model ≠ a.model_number)
    ∧ (getChangedFields device a model manufacturer now).custom_fields =
        some { processor_count := device.system.numberOfProcessors
               memory := memGiB device.system.totalPhysicalMemory }
    ∧ (getChangedFields device a model manufacturer now).notes =
        some (syncNotes now device)
    ∧ 0 < patchKeyCount (getChangedFields device a model manufacturer now)
    ∧ (syncAssetStep device now model manufacturer st).1.calls =
        st.calls ++ [{ method := .patch, resource := .hardware, objId := some a.id }] := by
  have hpos : 0 < patchKeyCount (getChangedFields device a model manufacturer now) := by
    simp only [patchKeyCount, getChangedFields, Option.isSome_some, if_true]
    omega
  refine ⟨?_, ?_, ?_, ?_, rfl, rfl, hpos, ?_⟩
  · simp only [getChangedFields]
    split <;> simp_all
  · simp only [getChangedFields]
    split <;> simp_all
  · simp only [getChangedFields]
    split <;> simp_all
  · simp only [getChangedFields]
    split <;> simp_all
  · simp [syncAssetStep, h, hpos, emit]

/-- Witness for C3 at the concrete matched device of the C2 scenario. -/
theorem C3_patch_fields_and_always_write_witness :
    ((getChangedFields hostDevice emptySerialAsset optiModel dellMfr 0).name.isSome
        ↔ hostDevice.systemName ≠ emptySerialAsset.name)
    ∧ ((getChangedFields hostDevice emptySerialAsset optiModel dellMfr 0).model_id.isSome
        ↔ optiModel.id ≠ emptySerialAsset.modelId)
    ∧ ((getChangedFields hostDevice emptySerialAsset optiModel dellMfr
          0).manufacturer_id.isSome
        ↔ dellMfr.id ≠ emptySerialAsset.manufacturerId)
    ∧ ((getChangedFields hostDevice emptySerialAsset optiModel dellMfr
          0).model_number.isSome
        ↔ hostDevice.system.model ≠ emptySerialAsset.model_number)
    ∧ (getChangedFields hostDevice emptySerialAsset optiModel dellMfr 0).custom_fields =
        some { processor_count := hostDevice.system.numberOfProcessors
               memory := memGiB hostDevice.system.totalPhysicalMemory }
    ∧ (getChangedFields hostDevice emptySerialAsset optiModel dellMfr 0).notes =
        some (syncNotes 0 hostDevice)
    ∧ 0 < patchKeyCount (getChangedFields hostDevice emptySerialAsset optiModel dellMfr 0)
    ∧ (syncAssetStep hostDevice 0 optiModel dellMfr emptySerialSt).1.calls =
        emptySerialSt.calls ++
          [{ method := .patch, resource := .hardware, objId := some emptySerialAsset.id }] :=
  C3_patch_fields_and_always_write hostDevice emptySerialAsset optiModel dellMfr 0
    emptySerialSt (by decide)

/-- **C1** counterexample — a run over one device whose per-device sync
raises (its manufacturer record carries a JS-falsy id, so `createModel`
throws); the run completes and the handler reports `1` device, while the
number of devices successfully synced is `0`. -/
theorem C1_counterexample :
    (getDevicesHandler [failingRawDevice] 0 failingServer).1 ≠
      runSucceededCount [failingRawDevice] 0 failingServer := by
  decide

end NinjaSnipeSync
